import Mathlib

/-!
Verification of `push/pushGitlab.go` from pipedrive/microplane.

The file embeds the three functions of that source file — `GitlabPush`,
`findOrCreateGitlabMR` and `GetPipelineStatus` — as pure Lean functions.
External collaborators (the git subprocess, the GitLab REST client, the
two rate limiters) are modelled as injected capabilities: a record of
response functions for the API, a record of subprocess results for git.
Every outbound permit consumption and API call is recorded in an event
trace, so that call-sequencing properties can be stated about it.
-/

namespace Microplane

/-- Modelled from the spec: the `Command` struct of the push package (its
definition is outside the provided source; `pushGitlab.go` constructs it with
a `Path` and an `Args` list before handing both to `exec.CommandContext`). -/
structure Command where
  Path : String
  Args : List String
  deriving DecidableEq, Repr

/-- Modelled from the spec: the `Input` struct of the push package (spec §3):
PlanDir, BranchName, CommitMessage, optional override PRBody, RepoOwner,
RepoName, PRAssignee, all caller-supplied strings. -/
structure Input where
  PlanDir : String
  BranchName : String
  CommitMessage : String
  PRBody : String
  RepoOwner : String
  RepoName : String
  PRAssignee : String
  deriving DecidableEq, Repr

/-- Modelled from the spec: the `Output` struct of the push package (spec §3).
Field defaults are the Go zero values, so that `{ Success := false }` is the
literal `Output{Success: false}` appearing on every error return. -/
structure Output where
  Success : Bool := false
  CommitSHA : String := ""
  PullRequestNumber : Int := 0
  PullRequestURL : String := ""
  PullRequestCombinedStatus : String := ""
  PullRequestAssignee : String := ""
  CircleCIBuildURL : String := ""
  deriving DecidableEq, Repr

/-- Pipeline reference reachable from a merge request (`pr.Pipeline.Ref`). -/
structure PipelineInfo where
  Ref : String
  deriving DecidableEq, Repr

/-- The fields of `gitlab.MergeRequest` that `pushGitlab.go` reads. -/
structure MergeRequest where
  ID : Int
  Title : String
  Description : String
  SHA : String
  WebURL : String
  Pipeline : PipelineInfo
  deriving DecidableEq, Repr

/-- The field of `gitlab.Pipeline` that `GetPipelineStatus` reads. -/
structure Pipeline where
  Status : String
  deriving DecidableEq, Repr

/-- `gitlab.CreateMergeRequestOptions`: Go pointer fields become `Option`. -/
structure CreateMergeRequestOptions where
  Title : Option String
  Description : Option String
  SourceBranch : Option String
  TargetBranch : Option String
  deriving DecidableEq, Repr

/-- `gitlab.ListMergeRequestsOptions`, the fields set at the list call. -/
structure ListMergeRequestsOptions where
  SourceBranch : Option String
  TargetBranch : Option String
  State : Option String
  deriving DecidableEq, Repr

/-- `gitlab.UpdateMergeRequestOptions`: the update call only sets
`TargetBranch` (see line 105-107 of the source). -/
structure UpdateMergeRequestOptions where
  TargetBranch : Option String
  deriving DecidableEq, Repr

/-- `gitlab.ListProjectPipelinesOptions`, the field set at the call site. -/
structure ListProjectPipelinesOptions where
  SHA : Option String
  deriving DecidableEq, Repr

/-- The GitLab REST client as a black-box capability (spec §1): each
operation maps its request to either a result or an error message
(a Go `error` is carried as its `Error()` string). -/
structure GitlabClient where
  createMergeRequest : String → CreateMergeRequestOptions → Except String MergeRequest
  listMergeRequests : ListMergeRequestsOptions → Except String (List MergeRequest)
  updateMergeRequest : String → Int → UpdateMergeRequestOptions → Except String MergeRequest
  listProjectPipelines : String → ListProjectPipelinesOptions → Except String (List Pipeline)

/-- Result of `cmd.CombinedOutput()`: the combined output bytes plus whether
the run returned a non-nil error. -/
structure GitResult where
  output : String
  failed : Bool
  deriving DecidableEq, Repr

/-- The git subprocess as a capability: a map from (command, working
directory) to the result of running it. -/
structure ExecEnv where
  run : Command → String → GitResult

/-- One observable outbound action: a permit taken from one of the two rate
limiters, or an API call with its request payload. -/
inductive Event where
  | pushPermit : Event
  | githubPermit : Event
  | createCall (pid : String) (opts : CreateMergeRequestOptions) : Event
  | listCall (opts : ListMergeRequestsOptions) : Event
  | updateCall (pid : String) (id : Int) (opts : UpdateMergeRequestOptions) : Event
  deriving DecidableEq, Repr

/-- Whether an event is a merge-request update call. -/
def isUpdateCall : Event → Bool
  | .updateCall _ _ _ => true
  | _ => false

/-- Whether an event is a merge-request list call. -/
def isListCall : Event → Bool
  | .listCall _ => true
  | _ => false

/-- Whether a list of characters starts with the given pattern. -/
def listHasPrefix : List Char → List Char → Bool
  | _, [] => true
  | [], _ :: _ => false
  | c :: cs, d :: ds => c = d && listHasPrefix cs ds

/-- Scan of `strings.Contains`: does any suffix of the first list start with
the pattern? -/
def containsSubstrAux (pat : List Char) : List Char → Bool
  | [] => pat.isEmpty
  | c :: cs => listHasPrefix (c :: cs) pat || containsSubstrAux pat cs

/-- Go `strings.Contains s pat` over the character lists of the strings. -/
def containsSubstr (s pat : String) : Bool :=
  containsSubstrAux pat.toList s.toList

/-- Split a character list at the first occurrence of `sep`: `none` when
`sep` does not occur, otherwise the part before and the part after it. -/
def splitOnceChar (sep : Char) : List Char → Option (List Char × List Char)
  | [] => none
  | c :: cs =>
    if c = sep then some ([], cs)
    else
      match splitOnceChar sep cs with
      | none => none
      | some (a, b) => some (c :: a, b)

/-- Go `strings.SplitN s sep 2` for a one-character separator: the whole
string when `sep` is absent, otherwise the parts before and after its first
occurrence. -/
def splitN2 (s : String) (sep : Char) : List String :=
  match splitOnceChar sep s.toList with
  | none => [s]
  | some (a, b) => [String.mk a, String.mk b]

/-- Lines 43-54 of `pushGitlab.go`: derive the MR title and body from the
commit message and the optional override body. `title` starts as the whole
commit message and `body` as `""`; when the message splits in two at a
newline, the title becomes the first part, and the body becomes the second
part only when no override was supplied. -/
def deriveTitleBody (commitMessage prBody : String) : String × String :=
  let title := commitMessage
  let body := ""
  let splitMsg := splitN2 commitMessage '\n'
  match splitMsg with
  | [a, b] => (a, if prBody = "" then b else body)
  | _ => (title, body)

/-- Modelled from the spec: the helper `different` of the push package (its
definition is outside the provided source). Spec §4.2 describes it as
pointer/value inequality against the desired value: two optional strings
differ when exactly one is absent, or both are present with unequal values. -/
def different : Option String → Option String → Bool
  | none, none => false
  | some a, some b => a != b
  | _, _ => true

/-- The `ListMergeRequestsOptions` built at lines 89-93 of the source:
filter by the desired source branch, target branch and the state
`"opened"` held by the local `prStatus`. -/
def mrListOpts (pull : CreateMergeRequestOptions) : ListMergeRequestsOptions :=
  { SourceBranch := pull.SourceBranch
    TargetBranch := pull.TargetBranch
    State := some "opened" }

/-- Lines 80-119 of `pushGitlab.go`. Takes a permit from the push limiter
then from the shared limiter, attempts the create; when creation fails with
a message containing `"merge request already exists"`, takes another shared
permit and lists open MRs for the branch pair; exactly one match is
required, and when its title or description differs from the desired ones a
further shared permit is taken and an update call issued. Go assigns
`pr.Title`/`pr.Description` just before the update, but `pr` is immediately
replaced by the update call's result (or dropped on its error), so those
writes are dead and not modelled. Returns the resolved MR or the error,
paired with the trace of permits and calls. -/
def findOrCreateGitlabMR (client : GitlabClient) (owner name : String)
    (pull : CreateMergeRequestOptions) :
    Except String MergeRequest × List Event :=
  let pid := owner ++ "/" ++ name
  let tr0 : List Event := [.pushPermit, .githubPermit, .createCall pid pull]
  match client.createMergeRequest pid pull with
  | .error e =>
    if containsSubstr e "merge request already exists" then
      let lOpts : ListMergeRequestsOptions := mrListOpts pull
      let tr1 := tr0 ++ [.githubPermit, .listCall lOpts]
      match client.listMergeRequests lOpts with
      | .error e2 => (.error e2, tr1)
      | .ok existingMRs =>
        match existingMRs with
        | [pr] =>
          if different (some pr.Title) pull.Title
              || different (some pr.Description) pull.Description then
            let updOpts : UpdateMergeRequestOptions := { TargetBranch := pull.TargetBranch }
            let tr2 := tr1 ++ [.githubPermit, .updateCall pid pr.ID updOpts]
            match client.updateMergeRequest pid pr.ID updOpts with
            | .error e3 => (.error e3, tr2)
            | .ok pr2 => (.ok pr2, tr2)
          else (.ok pr, tr1)
        | _ => (.error "unexpected: found more than 1 MR for branch", tr1)
    else (.error e, tr0)
  | .ok newMR => (.ok newMR, tr0)

/-- Lines 121-131 of `pushGitlab.go`: list the project pipelines; on a call
failure return `""` with the fixed error; on an empty list return the
sentinel string with no error; otherwise the status of the first pipeline.
The Go pair (string, error) becomes `String × Option String`. -/
def GetPipelineStatus (client : GitlabClient) (owner name : String)
    (opts : ListProjectPipelinesOptions) : String × Option String :=
  let pid := owner ++ "/" ++ name
  match client.listProjectPipelines pid opts with
  | .error _ => ("", some "unexpected: cannot get pipeline status")
  | .ok pipeline =>
    match pipeline with
    | [] => ("No pipeline was found", none)
    | p :: _ => (p.Status, none)

/-- Lines 16-78 of `pushGitlab.go`. Runs `git log -1 --pretty=format:%H`
then `git push -f origin HEAD:<branch>` in `input.PlanDir`, surfacing the
combined output as the error on a non-zero exit; derives title and body from
the commit message; reconciles the MR via `findOrCreateGitlabMR` with target
branch hardcoded to `"master"`; finally reads the pipeline status for
`pr.SHA`. The GitLab client (built in Go from two environment variables) is
an injected capability here. Returns the Go pair (Output, error) plus the
event trace of the reconciler. -/
def GitlabPush (execEnv : ExecEnv) (client : GitlabClient) (input : Input) :
    (Output × Option String) × List Event :=
  let gitLogCmd : Command := { Path := "git", Args := ["log", "-1", "--pretty=format:%H"] }
  let gitLogRes := execEnv.run gitLogCmd input.PlanDir
  if gitLogRes.failed then (({ Success := false }, some gitLogRes.output), [])
  else
    let gitHeadBranch := "HEAD:" ++ input.BranchName
    let gitPushCmd : Command := { Path := "git", Args := ["push", "-f", "origin", gitHeadBranch] }
    let gitPushRes := execEnv.run gitPushCmd input.PlanDir
    if gitPushRes.failed then (({ Success := false }, some gitPushRes.output), [])
    else
      let head := input.BranchName
      let base := "master"
      let tb := deriveTitleBody input.CommitMessage input.PRBody
      match findOrCreateGitlabMR client input.RepoOwner input.RepoName
          { Title := some tb.1, Description := some tb.2,
            SourceBranch := some head, TargetBranch := some base } with
      | (.error e, tr) => (({ Success := false }, some e), tr)
      | (.ok pr, tr) =>
        match GetPipelineStatus client input.RepoOwner input.RepoName { SHA := some pr.SHA } with
        | (_, some e2) => (({ Success := false }, some e2), tr)
        | (pipelineStatus, none) =>
          (({ Success := true
              CommitSHA := pr.SHA
              PullRequestNumber := pr.ID
              PullRequestURL := pr.WebURL
              PullRequestCombinedStatus := pipelineStatus
              PullRequestAssignee := input.PRAssignee
              CircleCIBuildURL := pr.Pipeline.Ref }, none), tr)

/-! ### Spec-side renderings used by refinement-style statements -/

/-- The spec phrase "the substring of the commit message before the first
newline", rendered independently of `splitN2`. -/
def beforeFirstNewline (s : String) : String :=
  String.mk (s.toList.takeWhile (fun c => c != '\n'))

/-- The spec phrase "the substring after the first newline", rendered
independently of `splitN2`. -/
def afterFirstNewline (s : String) : String :=
  String.mk ((s.toList.dropWhile (fun c => c != '\n')).tail)

/-! ### Lemmas about the character-level split -/

theorem splitOnceChar_of_not_mem (sep : Char) (l : List Char) (h : sep ∉ l) :
    splitOnceChar sep l = none := by
  induction l with
  | nil => rfl
  | cons c cs ih =>
    simp only [List.mem_cons, not_or] at h
    have hc : ¬ c = sep := fun hcc => h.1 hcc.symm
    simp only [splitOnceChar, if_neg hc, ih h.2]

theorem splitOnceChar_of_mem (sep : Char) (l : List Char) (h : sep ∈ l) :
    splitOnceChar sep l =
      some (l.takeWhile (fun c => c != sep), (l.dropWhile (fun c => c != sep)).tail) := by
  induction l with
  | nil => cases h
  | cons c cs ih =>
    by_cases hc : c = sep
    · subst hc
      simp [splitOnceChar, List.takeWhile, List.dropWhile]
    · have hmem : sep ∈ cs := by
        rcases List.mem_cons.mp h with h1 | h1
        · exact absurd h1.symm hc
        · exact h1
      have hb : (c != sep) = true := by simpa [bne_iff_ne] using hc
      simp only [splitOnceChar, if_neg hc, ih hmem]
      simp [List.takeWhile_cons, List.dropWhile_cons, hb]

/-! ### Claim theorems: title/body derivation -/

/-- C5: for every commit message containing a newline, with no override
body, the derived title is the substring before the first newline and the
derived description is the substring after it; for every commit message
without a newline, the derived title is the full message (whatever the
override). -/
theorem deriveTitleBody_newline_split (msg prBody : String) :
    (Char.ofNat 10 ∈ msg.toList →
      deriveTitleBody msg "" = (beforeFirstNewline msg, afterFirstNewline msg)) ∧
    (Char.ofNat 10 ∉ msg.toList → (deriveTitleBody msg prBody).1 = msg) := by
  constructor
  · intro h
    have hnl : Char.ofNat 10 = '\n' := rfl
    rw [hnl] at h
    simp only [deriveTitleBody, splitN2, splitOnceChar_of_mem '\n' msg.toList h,
      beforeFirstNewline, afterFirstNewline]
    simp
  · intro h
    have hnl : Char.ofNat 10 = '\n' := rfl
    rw [hnl] at h
    simp only [deriveTitleBody, splitN2, splitOnceChar_of_not_mem '\n' msg.toList h]

/-- Witness for C5 at concrete inputs: a message with a newline and one
without. -/
theorem deriveTitleBody_newline_split_witness :
    deriveTitleBody "a\nb" "" = (beforeFirstNewline "a\nb", afterFirstNewline "a\nb") ∧
    (deriveTitleBody "ab" "x").1 = "ab" :=
  ⟨(deriveTitleBody_newline_split "a\nb" "x").1 (by decide),
   (deriveTitleBody_newline_split "ab" "x").2 (by decide)⟩

/-- C6 (code_bug): when a non-empty override `PRBody` is supplied, the code
never copies it into `body` — the derived description is `""`, not the
override, both for a commit message with a newline and for one without.
The in-source comment (lines 44-45) promises the body is "given by
body-file if it exists". -/
theorem deriveTitleBody_override_dropped :
    deriveTitleBody "Fix bug\nDetails here" "OVERRIDE" = ("Fix bug", "") ∧
    deriveTitleBody "Fix bug" "OVERRIDE" = ("Fix bug", "") ∧
    ∀ msg prBody : String, (deriveTitleBody msg prBody).2 = "" ∨
      (deriveTitleBody msg prBody).2 = afterFirstNewline msg := by
  refine ⟨by decide, by decide, ?_⟩
  intro msg prBody
  by_cases h : Char.ofNat 10 ∈ msg.toList
  · have hnl : Char.ofNat 10 = '\n' := rfl
    rw [hnl] at h
    simp only [deriveTitleBody, splitN2, splitOnceChar_of_mem '\n' msg.toList h,
      afterFirstNewline]
    by_cases hp : prBody = "" <;> simp [hp]
  · have hnl : Char.ofNat 10 = '\n' := rfl
    rw [hnl] at h
    have hs : splitOnceChar '\n' msg.data = none := splitOnceChar_of_not_mem '\n' msg.toList h
    simp [deriveTitleBody, splitN2, hs]

/-- C7 (counterexample): on the spec's example input the derived pair is not
(`"Fix bug"`, `"Details here"`) — the description keeps the blank line's
newline. -/
theorem deriveTitleBody_example_ne_spec :
    deriveTitleBody "Fix bug\n\nDetails here" "" ≠ ("Fix bug", "Details here") := by
  decide

/-- C7 (amended): on the spec's example input the derived title is
`"Fix bug"` and the derived description is `"\nDetails here"` — everything
after the first newline, including the second newline. -/
theorem deriveTitleBody_example_amended :
    deriveTitleBody "Fix bug\n\nDetails here" "" = ("Fix bug", "\nDetails here") := by
  decide

/-! ### Concrete client fixtures for witnesses -/

/-- A client whose pipeline listing succeeds with the given list. -/
def pipelineOkClient (ps : List Pipeline) : GitlabClient :=
  { createMergeRequest := fun _ _ => .error "unused"
    listMergeRequests := fun _ => .ok []
    updateMergeRequest := fun _ _ _ => .error "unused"
    listProjectPipelines := fun _ _ => .ok ps }

/-- A client whose pipeline listing fails with the given error message. -/
def pipelineErrClient (e : String) : GitlabClient :=
  { createMergeRequest := fun _ _ => .error "unused"
    listMergeRequests := fun _ => .ok []
    updateMergeRequest := fun _ _ _ => .error "unused"
    listProjectPipelines := fun _ _ => .error e }

/-! ### Claim theorems: pipeline status -/

/-- C4: `GetPipelineStatus` returns (`"No pipeline was found"`, no error)
when the listing succeeds with an empty list; (status of the first pipeline,
no error) when it succeeds with a non-empty list; and the fatal error
`"unexpected: cannot get pipeline status"` when the listing itself fails. -/
theorem GetPipelineStatus_cases (client : GitlabClient) (owner name : String)
    (opts : ListProjectPipelinesOptions) :
    (client.listProjectPipelines (owner ++ "/" ++ name) opts = .ok [] →
      GetPipelineStatus client owner name opts = ("No pipeline was found", none)) ∧
    (∀ p rest, client.listProjectPipelines (owner ++ "/" ++ name) opts = .ok (p :: rest) →
      GetPipelineStatus client owner name opts = (p.Status, none)) ∧
    (∀ e, client.listProjectPipelines (owner ++ "/" ++ name) opts = .error e →
      (GetPipelineStatus client owner name opts).2 =
        some "unexpected: cannot get pipeline status") := by
  refine ⟨fun h => ?_, fun p rest h => ?_, fun e h => ?_⟩ <;>
    simp [GetPipelineStatus, h]

/-- Witness for C4: the three outcomes at concrete clients. -/
theorem GetPipelineStatus_cases_witness :
    GetPipelineStatus (pipelineOkClient []) "o" "r" { SHA := some "s" } =
      ("No pipeline was found", none) ∧
    GetPipelineStatus (pipelineOkClient [{ Status := "success" }]) "o" "r" { SHA := some "s" } =
      ("success", none) ∧
    (GetPipelineStatus (pipelineErrClient "http 500") "o" "r" { SHA := some "s" }).2 =
      some "unexpected: cannot get pipeline status" :=
  ⟨(GetPipelineStatus_cases (pipelineOkClient []) "o" "r" { SHA := some "s" }).1 rfl,
   (GetPipelineStatus_cases (pipelineOkClient [{ Status := "success" }]) "o" "r"
      { SHA := some "s" }).2.1 { Status := "success" } [] rfl,
   (GetPipelineStatus_cases (pipelineErrClient "http 500") "o" "r"
      { SHA := some "s" }).2.2 "http 500" rfl⟩

/-- C10: when the pipeline listing fails, whatever the underlying error
message is, `GetPipelineStatus` returns the empty string and the fixed
error `"unexpected: cannot get pipeline status"` — nothing of the
underlying failure survives in the result. -/
theorem GetPipelineStatus_discards_underlying_error (client : GitlabClient)
    (owner name : String) (opts : ListProjectPipelinesOptions) (e : String)
    (h : client.listProjectPipelines (owner ++ "/" ++ name) opts = .error e) :
    GetPipelineStatus client owner name opts =
      ("", some "unexpected: cannot get pipeline status") := by
  simp [GetPipelineStatus, h]

/-- Witness for C10 at a concrete failing client whose error message would
have carried detail. -/
theorem GetPipelineStatus_discards_underlying_error_witness :
    GetPipelineStatus (pipelineErrClient "connection refused to host gitlab.example.com")
      "o" "r" { SHA := some "s" } = ("", some "unexpected: cannot get pipeline status") :=
  GetPipelineStatus_discards_underlying_error
    (pipelineErrClient "connection refused to host gitlab.example.com")
    "o" "r" { SHA := some "s" } "connection refused to host gitlab.example.com" rfl

/-- A client whose create attempt fails with the conflict message, whose
list call returns the given MRs, and whose update call returns `upd`. -/
def conflictClient (mrs : List MergeRequest) (upd : Except String MergeRequest) : GitlabClient :=
  { createMergeRequest := fun _ _ => .error "409 merge request already exists"
    listMergeRequests := fun _ => .ok mrs
    updateMergeRequest := fun _ _ _ => upd
    listProjectPipelines := fun _ _ => .ok [] }

/-- A client whose create attempt fails with the given message. -/
def createErrClient (e : String) : GitlabClient :=
  { createMergeRequest := fun _ _ => .error e
    listMergeRequests := fun _ => .ok []
    updateMergeRequest := fun _ _ _ => .error "unused"
    listProjectPipelines := fun _ _ => .ok [] }

/-- A client whose create attempt succeeds with the given MR. -/
def createOkClient (mr : MergeRequest) : GitlabClient :=
  { createMergeRequest := fun _ _ => .ok mr
    listMergeRequests := fun _ => .ok []
    updateMergeRequest := fun _ _ _ => .error "unused"
    listProjectPipelines := fun _ _ => .ok [] }

/-- A sample remote MR used by the witnesses. -/
def sampleMR : MergeRequest :=
  { ID := 7, Title := "old title", Description := "old body", SHA := "abc123"
    WebURL := "https://gitlab.example.com/mr/7", Pipeline := { Ref := "refs/pipeline/7" } }

/-- Desired MR options whose title and description differ from `sampleMR`. -/
def desiredOpts : CreateMergeRequestOptions :=
  { Title := some "new title", Description := some "new body"
    SourceBranch := some "feature", TargetBranch := some "master" }

/-- Desired MR options equal to `sampleMR`'s title and description. -/
def matchingOpts : CreateMergeRequestOptions :=
  { Title := some "old title", Description := some "old body"
    SourceBranch := some "feature", TargetBranch := some "master" }

/-! ### Claim theorems: the MR reconciler -/

/-- C1: after a create attempt fails with a message containing
`"merge request already exists"`: when the list of open MRs for the branch
pair returns exactly one MR whose title or description differs from the
desired ones, an update call is issued; when it returns zero or more than
one MR, the fixed error `"unexpected: found more than 1 MR for branch"` is
returned and no update call is issued. -/
theorem findOrCreateGitlabMR_conflict_reconciliation (client : GitlabClient)
    (owner name : String) (pull : CreateMergeRequestOptions) (e : String)
    (hc : client.createMergeRequest (owner ++ "/" ++ name) pull = .error e)
    (hm : containsSubstr e "merge request already exists" = true)
    (mrs : List MergeRequest)
    (hl : client.listMergeRequests (mrListOpts pull) = .ok mrs) :
    (∀ pr, mrs = [pr] →
      (different (some pr.Title) pull.Title
        || different (some pr.Description) pull.Description) = true →
      (findOrCreateGitlabMR client owner name pull).2.countP isUpdateCall = 1) ∧
    (mrs.length ≠ 1 →
      (findOrCreateGitlabMR client owner name pull).1 =
        .error "unexpected: found more than 1 MR for branch" ∧
      (findOrCreateGitlabMR client owner name pull).2.countP isUpdateCall = 0) := by
  constructor
  · rintro pr rfl hdiff
    simp [findOrCreateGitlabMR, hc, hm, hl, hdiff, isUpdateCall,
      List.countP_cons, List.countP_append]
    cases client.updateMergeRequest (owner ++ "/" ++ name) pr.ID
        { TargetBranch := pull.TargetBranch } <;>
      simp [isUpdateCall, List.countP_cons, List.countP_append]
  · intro hlen
    rcases mrs with _ | ⟨a, _ | ⟨b, rest⟩⟩
    · constructor <;>
        simp [findOrCreateGitlabMR, hc, hm, hl, isUpdateCall,
          List.countP_cons, List.countP_append]
    · simp at hlen
    · constructor <;>
        simp [findOrCreateGitlabMR, hc, hm, hl, isUpdateCall,
          List.countP_cons, List.countP_append]

/-- Witness for C1: with one differing remote MR an update call appears;
with two remote MRs the fixed error comes back and no update happens. -/
theorem findOrCreateGitlabMR_conflict_reconciliation_witness :
    (findOrCreateGitlabMR (conflictClient [sampleMR] (.ok sampleMR))
      "o" "r" desiredOpts).2.countP isUpdateCall = 1 ∧
    ((findOrCreateGitlabMR (conflictClient [sampleMR, sampleMR] (.ok sampleMR))
      "o" "r" desiredOpts).1 = .error "unexpected: found more than 1 MR for branch" ∧
     (findOrCreateGitlabMR (conflictClient [sampleMR, sampleMR] (.ok sampleMR))
      "o" "r" desiredOpts).2.countP isUpdateCall = 0) :=
  ⟨(findOrCreateGitlabMR_conflict_reconciliation
      (conflictClient [sampleMR] (.ok sampleMR)) "o" "r" desiredOpts
      "409 merge request already exists" rfl (by decide) [sampleMR] rfl).1
      sampleMR rfl (by decide),
   (findOrCreateGitlabMR_conflict_reconciliation
      (conflictClient [sampleMR, sampleMR] (.ok sampleMR)) "o" "r" desiredOpts
      "409 merge request already exists" rfl (by decide) [sampleMR, sampleMR] rfl).2
      (by decide)⟩

/-- C2: when the create attempt fails with a message not containing
`"merge request already exists"`, the reconciler returns that error
unchanged and performs no list call and no update call. -/
theorem findOrCreateGitlabMR_other_error (client : GitlabClient)
    (owner name : String) (pull : CreateMergeRequestOptions) (e : String)
    (hc : client.createMergeRequest (owner ++ "/" ++ name) pull = .error e)
    (hm : containsSubstr e "merge request already exists" = false) :
    (findOrCreateGitlabMR client owner name pull).1 = .error e ∧
    (findOrCreateGitlabMR client owner name pull).2.countP isListCall = 0 ∧
    (findOrCreateGitlabMR client owner name pull).2.countP isUpdateCall = 0 := by
  refine ⟨?_, ?_, ?_⟩ <;>
    simp [findOrCreateGitlabMR, hc, hm, isListCall, isUpdateCall, List.countP_cons]

/-- Witness for C2 at a concrete non-conflict failure. -/
theorem findOrCreateGitlabMR_other_error_witness :
    (findOrCreateGitlabMR (createErrClient "500 internal server error")
      "o" "r" desiredOpts).1 = .error "500 internal server error" ∧
    (findOrCreateGitlabMR (createErrClient "500 internal server error")
      "o" "r" desiredOpts).2.countP isListCall = 0 ∧
    (findOrCreateGitlabMR (createErrClient "500 internal server error")
      "o" "r" desiredOpts).2.countP isUpdateCall = 0 :=
  findOrCreateGitlabMR_other_error (createErrClient "500 internal server error")
    "o" "r" desiredOpts "500 internal server error" rfl (by decide)

/-- C3: idempotence — when the remote already holds exactly one open MR for
the branch pair whose title and description equal the desired ones (as a
second invocation with the same desired values finds), the reconciler
performs zero update calls and returns that MR. -/
theorem findOrCreateGitlabMR_idempotent (client : GitlabClient)
    (owner name : String) (pull : CreateMergeRequestOptions)
    (pr : MergeRequest) (e : String)
    (hc : client.createMergeRequest (owner ++ "/" ++ name) pull = .error e)
    (hm : containsSubstr e "merge request already exists" = true)
    (hl : client.listMergeRequests (mrListOpts pull) = .ok [pr])
    (ht : pull.Title = some pr.Title)
    (hd : pull.Description = some pr.Description) :
    (findOrCreateGitlabMR client owner name pull).2.countP isUpdateCall = 0 ∧
    (findOrCreateGitlabMR client owner name pull).1 = .ok pr := by
  have hdt : different (some pr.Title) pull.Title = false := by
    rw [ht]; simp [different]
  have hdd : different (some pr.Description) pull.Description = false := by
    rw [hd]; simp [different]
  constructor <;>
    simp [findOrCreateGitlabMR, hc, hm, hl, hdt, hdd, isUpdateCall,
      List.countP_cons, List.countP_append]

/-- Witness for C3: a second run against an already-matching remote MR
issues no update call. -/
theorem findOrCreateGitlabMR_idempotent_witness :
    (findOrCreateGitlabMR (conflictClient [sampleMR] (.ok sampleMR))
      "o" "r" matchingOpts).2.countP isUpdateCall = 0 ∧
    (findOrCreateGitlabMR (conflictClient [sampleMR] (.ok sampleMR))
      "o" "r" matchingOpts).1 = .ok sampleMR :=
  findOrCreateGitlabMR_idempotent (conflictClient [sampleMR] (.ok sampleMR))
    "o" "r" matchingOpts sampleMR "409 merge request already exists"
    rfl (by decide) rfl rfl rfl

/-- C8: exact permit and call sequencing of the reconciler. One push-limiter
permit then one shared-limiter permit precede the create attempt in every
run; on the conflict path exactly one more shared permit precedes the list
call; one further shared permit precedes the update call exactly when an
update is issued (one differing MR found); no other permits are consumed —
each case's trace is given in full. -/
theorem findOrCreateGitlabMR_permit_sequencing (client : GitlabClient)
    (owner name : String) (pull : CreateMergeRequestOptions) :
    (∀ mr, client.createMergeRequest (owner ++ "/" ++ name) pull = .ok mr →
      (findOrCreateGitlabMR client owner name pull).2 =
        [Event.pushPermit, Event.githubPermit,
         Event.createCall (owner ++ "/" ++ name) pull]) ∧
    (∀ e, client.createMergeRequest (owner ++ "/" ++ name) pull = .error e →
      containsSubstr e "merge request already exists" = false →
      (findOrCreateGitlabMR client owner name pull).2 =
        [Event.pushPermit, Event.githubPermit,
         Event.createCall (owner ++ "/" ++ name) pull]) ∧
    (∀ e, client.createMergeRequest (owner ++ "/" ++ name) pull = .error e →
      containsSubstr e "merge request already exists" = true →
      ((∀ mrs, client.listMergeRequests (mrListOpts pull) = .ok mrs →
          (∀ pr, mrs ≠ [pr]) ∨
            (∃ pr, mrs = [pr] ∧
              (different (some pr.Title) pull.Title
                || different (some pr.Description) pull.Description) = false) →
          (findOrCreateGitlabMR client owner name pull).2 =
            [Event.pushPermit, Event.githubPermit,
             Event.createCall (owner ++ "/" ++ name) pull,
             Event.githubPermit, Event.listCall (mrListOpts pull)]) ∧
       (∀ e2, client.listMergeRequests (mrListOpts pull) = .error e2 →
          (findOrCreateGitlabMR client owner name pull).2 =
            [Event.pushPermit, Event.githubPermit,
             Event.createCall (owner ++ "/" ++ name) pull,
             Event.githubPermit, Event.listCall (mrListOpts pull)]) ∧
       (∀ pr, client.listMergeRequests (mrListOpts pull) = .ok [pr] →
          (different (some pr.Title) pull.Title
            || different (some pr.Description) pull.Description) = true →
          (findOrCreateGitlabMR client owner name pull).2 =
            [Event.pushPermit, Event.githubPermit,
             Event.createCall (owner ++ "/" ++ name) pull,
             Event.githubPermit, Event.listCall (mrListOpts pull),
             Event.githubPermit,
             Event.updateCall (owner ++ "/" ++ name) pr.ID
               { TargetBranch := pull.TargetBranch }]))) := by
  refine ⟨fun mr hc => ?_, fun e hc hm => ?_, fun e hc hm => ⟨fun mrs hl hno => ?_,
    fun e2 hl => ?_, fun pr hl hdiff => ?_⟩⟩
  · simp [findOrCreateGitlabMR, hc]
  · simp [findOrCreateGitlabMR, hc, hm]
  · rcases hno with hno | ⟨pr, rfl, hdiff⟩
    · rcases mrs with _ | ⟨a, _ | ⟨b, rest⟩⟩
      · simp [findOrCreateGitlabMR, hc, hm, hl]
      · exact absurd rfl (hno a)
      · simp [findOrCreateGitlabMR, hc, hm, hl]
    · simp [findOrCreateGitlabMR, hc, hm, hl, hdiff]
  · simp [findOrCreateGitlabMR, hc, hm, hl]
  · simp [findOrCreateGitlabMR, hc, hm, hl, hdiff]
    cases client.updateMergeRequest (owner ++ "/" ++ name) pr.ID
        { TargetBranch := pull.TargetBranch } <;> simp

/-- Witness for C8: the plain-create trace and the full update-path trace
at concrete clients. -/
theorem findOrCreateGitlabMR_permit_sequencing_witness :
    (findOrCreateGitlabMR (createOkClient sampleMR) "o" "r" desiredOpts).2 =
      [Event.pushPermit, Event.githubPermit,
       Event.createCall ("o" ++ "/" ++ "r") desiredOpts] ∧
    (findOrCreateGitlabMR (conflictClient [sampleMR] (.ok sampleMR))
        "o" "r" desiredOpts).2 =
      [Event.pushPermit, Event.githubPermit,
       Event.createCall ("o" ++ "/" ++ "r") desiredOpts,
       Event.githubPermit, Event.listCall (mrListOpts desiredOpts),
       Event.githubPermit,
       Event.updateCall ("o" ++ "/" ++ "r") sampleMR.ID
         { TargetBranch := desiredOpts.TargetBranch }] :=
  ⟨(findOrCreateGitlabMR_permit_sequencing (createOkClient sampleMR)
      "o" "r" desiredOpts).1 sampleMR rfl,
   ((findOrCreateGitlabMR_permit_sequencing (conflictClient [sampleMR] (.ok sampleMR))
      "o" "r" desiredOpts).2.2 "409 merge request already exists" rfl
      (by decide)).2.2 sampleMR rfl (by decide)⟩

/-- An exec environment in which every git command fails. -/
def failLogExec : ExecEnv :=
  { run := fun _ _ => { output := "fatal: not a git repository", failed := true } }

/-- An exec environment in which every git command succeeds. -/
def okExec : ExecEnv :=
  { run := fun _ _ => { output := "deadbeef", failed := false } }

/-- A sample caller input used by the witnesses. -/
def sampleInput : Input :=
  { PlanDir := "/tmp/plan", BranchName := "feature"
    CommitMessage := "Fix bug\n\nDetails here", PRBody := ""
    RepoOwner := "o", RepoName := "r", PRAssignee := "alice" }

/-! ### Claim theorems: GitlabPush output shaping -/

/-- C9: on every error path of `GitlabPush` (git log failure, git push
failure, reconciler failure, pipeline lookup failure) the returned `Output`
is `Output{Success: false}` — `Success = false` and every other field at
its zero value — and `Success = true` exactly on the error-free path. -/
theorem GitlabPush_error_output (execEnv : ExecEnv) (client : GitlabClient)
    (input : Input) :
    ((GitlabPush execEnv client input).1.2.isSome = true →
      (GitlabPush execEnv client input).1.1 =
        { Success := false, CommitSHA := "", PullRequestNumber := 0
          PullRequestURL := "", PullRequestCombinedStatus := ""
          PullRequestAssignee := "", CircleCIBuildURL := "" }) ∧
    ((GitlabPush execEnv client input).1.2 = none ↔
      (GitlabPush execEnv client input).1.1.Success = true) := by
  simp only [GitlabPush]
  split
  · simp
  · split
    · simp
    · split
      · simp
      · split <;> simp

/-- Witness for C9: a failing git log yields the all-zero output, and a
fully successful run yields `Success = true`. -/
theorem GitlabPush_error_output_witness :
    (GitlabPush failLogExec (createErrClient "boom") sampleInput).1.1 =
      { Success := false, CommitSHA := "", PullRequestNumber := 0
        PullRequestURL := "", PullRequestCombinedStatus := ""
        PullRequestAssignee := "", CircleCIBuildURL := "" } ∧
    (GitlabPush okExec (createOkClient sampleMR) sampleInput).1.1.Success = true :=
  ⟨(GitlabPush_error_output failLogExec (createErrClient "boom") sampleInput).1 rfl,
   (GitlabPush_error_output okExec (createOkClient sampleMR) sampleInput).2.mp rfl⟩

end Microplane
